import Mathlib

/-!
# Verification of the streaming response normalization layer

Shallow embedding of the stream-normalization and provider-dispatch core of
the chat client (files `src/services/apiService.ts`, `src/context/ChatContext.tsx`,
`src/lib/utils.ts`, `src/types/index.ts`).

Modelling conventions:
* A network byte chunk is modelled by the text the `TextDecoder` (invoked with
  `stream: true`) produces for it.  The decoder carries partial UTF-8 sequences
  across chunk boundaries, so a byte-level split of the wire text corresponds to
  a character-level split of the decoded text; chunks are therefore `List Char`.
* `JSON.parse` is embedded as a fuel-indexed recursive-descent parser over the
  JSON grammar (objects with last-key-wins lookup, arrays, strings with escape
  sequences, number literals kept as their source text, `true`/`false`/`null`).
* JavaScript `undefined` (which the generator can yield when a matched shape is
  missing its text field) is the extra constructor `JsVal.undef`; a thrown and
  caught per-line exception (e.g. property access on `null`) is observationally
  a skipped line and is modelled as `none`.
* `+=` string concatenation uses JavaScript `ToString` semantics, except that
  a number converts to its source literal (no claim inspects numeric output).
-/

/-- The whitespace class used by JavaScript `String.prototype.trim`
(ASCII whitespace together with the common Unicode space characters). -/
def jsWhitespaceChar (c : Char) : Bool :=
  c = ' ' || c = '\t' || c = '\n' || c = '\r' ||
  c = '\x0b' || c = '\x0c' || c = ' ' || c = '﻿' ||
  c = ' ' || c = ' '

/-- The whitespace accepted between tokens by `JSON.parse`. -/
def jsonWsChar (c : Char) : Bool :=
  c = ' ' || c = '\t' || c = '\n' || c = '\r'

/-- JavaScript `String.prototype.trim` on a character list. -/
def jsTrim (l : List Char) : List Char :=
  ((l.dropWhile jsWhitespaceChar).reverse.dropWhile jsWhitespaceChar).reverse

/-- JavaScript `String.prototype.includes`: substring containment. -/
def containsSub (sub : List Char) : List Char → Bool
  | [] => sub.isEmpty
  | c :: rest => sub.isPrefixOf (c :: rest) || containsSub sub rest

/-- JavaScript `String.prototype.split('\n')` on a character list: the
maximal newline-free segments, keeping empty segments. -/
def splitLines : List Char → List (List Char)
  | [] => [[]]
  | c :: rest =>
    if c = '\n' then [] :: splitLines rest
    else
      match splitLines rest with
      | [] => [[c]]
      | l :: ls => (c :: l) :: ls

/-- A JSON value as produced by `JSON.parse`.  Numbers keep their source
literal (no claim depends on numeric value beyond zero-ness, which the
literal determines). -/
inductive Json where
  | null : Json
  | bool : Bool → Json
  | num : String → Json
  | str : String → Json
  | arr : List Json → Json
  | obj : List (String × Json) → Json
deriving Repr

/-- A JavaScript value yielded by the generator: a JSON value or `undefined`. -/
inductive JsVal where
  | undef : JsVal
  | val : Json → JsVal
deriving Repr

/-- Hexadecimal digit value, for `\uXXXX` escapes. -/
def hexDigitVal (c : Char) : Option Nat :=
  if '0' ≤ c ∧ c ≤ '9' then some (c.toNat - '0'.toNat)
  else if 'a' ≤ c ∧ c ≤ 'f' then some (c.toNat - 'a'.toNat + 10)
  else if 'A' ≤ c ∧ c ≤ 'F' then some (c.toNat - 'A'.toNat + 10)
  else none

/-- Decode one JSON string escape after the backslash; returns the decoded
character and the remaining input.  A `\uXXXX` code that is not a Unicode
scalar value (a lone surrogate) falls back to `Char.ofNat`'s default. -/
def jsonEscape (e : Char) (rest : List Char) : Option (Char × List Char) :=
  match e with
  | '"' => some ('"', rest)
  | '\\' => some ('\\', rest)
  | '/' => some ('/', rest)
  | 'b' => some ('\x08', rest)
  | 'f' => some ('\x0c', rest)
  | 'n' => some ('\n', rest)
  | 'r' => some ('\r', rest)
  | 't' => some ('\t', rest)
  | 'u' =>
    match rest with
    | a :: b :: c :: d :: rest4 =>
      match hexDigitVal a, hexDigitVal b, hexDigitVal c, hexDigitVal d with
      | some va, some vb, some vc, some vd =>
        some (Char.ofNat (((va * 16 + vb) * 16 + vc) * 16 + vd), rest4)
      | _, _, _, _ => none
    | _ => none
  | _ => none

/-- Parse the body of a JSON string after the opening quote, returning the
decoded characters and the input after the closing quote.  Raw control
characters below U+0020 are rejected, as in `JSON.parse`. -/
def parseStringRest : Nat → List Char → Option (List Char × List Char)
  | 0, _ => none
  | _ + 1, [] => none
  | fuel + 1, c :: rest =>
    if c = '"' then some ([], rest)
    else if c = '\\' then
      match rest with
      | [] => none
      | e :: rest2 =>
        match jsonEscape e rest2 with
        | none => none
        | some (d, rest3) =>
          match parseStringRest fuel rest3 with
          | none => none
          | some (cs, rest4) => some (d :: cs, rest4)
    else if c.toNat < 0x20 then none
    else
      match parseStringRest fuel rest with
      | none => none
      | some (cs, rest2) => some (c :: cs, rest2)

/-- Parse the fraction-and-exponent tail of a JSON number literal. -/
def parseNumTail (s : List Char) : List Char × List Char :=
  let (fracPart, s1) :=
    match s with
    | '.' :: r =>
      let ds := r.takeWhile Char.isDigit
      if ds.isEmpty then ([], s) else ('.' :: ds, r.drop ds.length)
    | _ => ([], s)
  match s1 with
  | e :: r =>
    if e = 'e' ∨ e = 'E' then
      let (sign, r1) :=
        match r with
        | '+' :: r' => (['+'], r')
        | '-' :: r' => (['-'], r')
        | _ => ([], r)
      let ds := r1.takeWhile Char.isDigit
      if ds.isEmpty then (fracPart, s1)
      else (fracPart ++ e :: sign ++ ds, r1.drop ds.length)
    else (fracPart, s1)
  | [] => (fracPart, s1)

/-- Parse a JSON number literal (grammar `-? int frac? exp?`, no leading
zeros), returning its source characters and the remaining input. -/
def parseNumberLit (s : List Char) : Option (List Char × List Char) :=
  let (neg, s1) :=
    match s with
    | '-' :: r => (['-'], r)
    | _ => ([], s)
  match s1 with
  | '0' :: r =>
    let (tail, rest) := parseNumTail r
    some (neg ++ '0' :: tail, rest)
  | c :: r =>
    if c.isDigit then
      let ds := r.takeWhile Char.isDigit
      let (tail, rest) := parseNumTail (r.drop ds.length)
      some (neg ++ c :: ds ++ tail, rest)
    else none
  | [] => none

mutual

/-- Recursive-descent parse of one JSON value (leading whitespace allowed),
returning the value and the remaining input. -/
def parseJsonValue : Nat → List Char → Option (Json × List Char)
  | 0, _ => none
  | fuel + 1, s =>
    match s.dropWhile jsonWsChar with
    | [] => none
    | 't' :: rest =>
      if ['r', 'u', 'e'].isPrefixOf rest then some (.bool true, rest.drop 3) else none
    | 'f' :: rest =>
      if ['a', 'l', 's', 'e'].isPrefixOf rest then some (.bool false, rest.drop 4) else none
    | 'n' :: rest =>
      if ['u', 'l', 'l'].isPrefixOf rest then some (.null, rest.drop 3) else none
    | '"' :: rest =>
      match parseStringRest (fuel + 1) rest with
      | none => none
      | some (cs, rest2) => some (.str (String.mk cs), rest2)
    | '[' :: rest =>
      match rest.dropWhile jsonWsChar with
      | ']' :: rest2 => some (.arr [], rest2)
      | _ => parseJsonElems fuel rest []
    | '\x7b' :: rest =>
      match rest.dropWhile jsonWsChar with
      | '\x7d' :: rest2 => some (.obj [], rest2)
      | _ => parseJsonMembers fuel rest []
    | c :: rest =>
      if c = '-' ∨ c.isDigit then
        match parseNumberLit (c :: rest) with
        | none => none
        | some (lit, rest2) => some (.num (String.mk lit), rest2)
      else none

/-- Parse the comma-separated elements of a JSON array (after `[`). -/
def parseJsonElems : Nat → List Char → List Json → Option (Json × List Char)
  | 0, _, _ => none
  | fuel + 1, s, acc =>
    match parseJsonValue fuel s with
    | none => none
    | some (v, rest) =>
      match rest.dropWhile jsonWsChar with
      | ',' :: rest2 => parseJsonElems fuel rest2 (acc ++ [v])
      | ']' :: rest2 => some (.arr (acc ++ [v]), rest2)
      | _ => none

/-- Parse the comma-separated `"key": value` members of a JSON object
(after `{`).  Duplicate keys follow `JSON.parse`: the last wins (the
lookup function below returns the last binding). -/
def parseJsonMembers : Nat → List Char → List (String × Json) → Option (Json × List Char)
  | 0, _, _ => none
  | fuel + 1, s, acc =>
    match s.dropWhile jsonWsChar with
    | '"' :: rest =>
      match parseStringRest (fuel + 1) rest with
      | none => none
      | some (key, rest2) =>
        match rest2.dropWhile jsonWsChar with
        | ':' :: rest3 =>
          match parseJsonValue fuel rest3 with
          | none => none
          | some (v, rest4) =>
            match rest4.dropWhile jsonWsChar with
            | ',' :: rest5 => parseJsonMembers fuel rest5 (acc ++ [(String.mk key, v)])
            | '\x7d' :: rest5 => some (.obj (acc ++ [(String.mk key, v)]), rest5)
            | _ => none
        | _ => none
    | _ => none

end

/-- `JSON.parse` on a character list: parse one value, allow trailing
whitespace, reject anything else left over. -/
def jsonParse (s : List Char) : Option Json :=
  match parseJsonValue (s.length + 1) s with
  | none => none
  | some (v, rest) => if (rest.dropWhile jsonWsChar).isEmpty then some v else none

/-- Property lookup on a JSON value, as JavaScript property access on the
object produced by `JSON.parse`: on an object the last binding for the key
(later duplicate keys overwrite earlier ones), on any other value
`undefined` (`none`).  Access on `null` — which throws in JavaScript — is
handled by the callers. -/
def getField (j : Json) (k : String) : Option Json :=
  match j with
  | .obj fields => fields.foldl (fun acc kv => if kv.1 = k then some kv.2 else acc) none
  | _ => none

/-- JavaScript optional chaining `base?.k` where `base` may be `undefined`
(`none`) or `null`: both short-circuit to `undefined`. -/
def optChainField (o : Option Json) (k : String) : Option Json :=
  match o with
  | none => none
  | some .null => none
  | some j => getField j k

/-- Does this optional field hold exactly the given string (JavaScript
strict equality with a string literal)? -/
def isStrField (o : Option Json) (s : String) : Bool :=
  match o with
  | some (.str t) => t = s
  | _ => false

/-- Is the number written by this JSON literal nonzero?  A JSON number is
zero exactly when every digit of its mantissa (integer and fraction parts)
is `0`; the exponent cannot change that. -/
def numLitTruthy (lit : String) : Bool :=
  (lit.toList.takeWhile (fun c => ¬ (c = 'e' ∨ c = 'E'))).any
    (fun c => c.isDigit && c ≠ '0')

/-- JavaScript truthiness of a JSON value. -/
def jsTruthy : Json → Bool
  | .null => false
  | .bool b => b
  | .num lit => numLitTruthy lit
  | .str s => s ≠ ""
  | .arr _ => true
  | .obj _ => true

/-- Truthiness of an optional field (`undefined` is falsy). -/
def optTruthy (o : Option Json) : Bool :=
  match o with
  | some j => jsTruthy j
  | none => false

/-- JavaScript `value[0]`: index access used on the `choices` field.  Arrays
yield their first element (or `undefined` when empty), objects their `"0"`
property, strings their first character; numbers and booleans have no `0`
property.  (`null` is never indexed here: the truthiness guard on `choices`
short-circuits first.) -/
def jsIndex0 : Json → Option Json
  | .arr xs => xs.head?
  | .obj fields => getField (.obj fields) "0"
  | .str s =>
    match s.toList with
    | [] => none
    | c :: _ => some (.str (String.mk [c]))
  | _ => none

mutual

/-- JavaScript `ToString` of a JSON value, as used by `+=` concatenation.
A number converts to its source literal (JavaScript re-formats numbers;
no claim inspects one). -/
def jsonToString : Json → String
  | .null => "null"
  | .bool b => if b then "true" else "false"
  | .num lit => lit
  | .str s => s
  | .arr xs => jsonArrJoin xs
  | .obj _ => "[object Object]"

/-- `Array.prototype.toString`: elements joined by commas, `null` elements
rendered as the empty string. -/
def jsonArrJoin : List Json → String
  | [] => ""
  | [Json.null] => ""
  | [x] => jsonToString x
  | Json.null :: xs => "," ++ jsonArrJoin xs
  | x :: xs => jsonToString x ++ "," ++ jsonArrJoin xs

end

/-- `ToString` of a yielded value (`undefined` renders as `"undefined"`). -/
def jsValToString : JsVal → String
  | .undef => "undefined"
  | .val j => jsonToString j

/-- The shape dispatch of `streamChatResponse` (apiService.ts) on one parsed
data payload, in source order:
1. `data.chunk !== undefined` — yield `data.chunk`;
2. `data.type === 'content_block_delta' && data.delta?.type === 'text_delta'`
   — yield `data.delta.text` (which is `undefined` when the field is absent);
3. `data.choices && data.choices[0]?.delta?.content` (truthy) — yield it;
4. `data.choices && data.choices[0]?.message?.content` (truthy) — yield it.
`data` being `null` makes step 1's property access throw; the per-line
`catch` turns that into a skipped line (`none`), like a no-match. -/
def extractFragment (data : Json) : Option JsVal :=
  match data with
  | .null => none
  | _ =>
    match getField data "chunk" with
    | some v => some (.val v)
    | none =>
      if isStrField (getField data "type") "content_block_delta" &&
          isStrField (optChainField (getField data "delta") "type") "text_delta" then
        match optChainField (getField data "delta") "text" with
        | some v => some (.val v)
        | none => some .undef
      else
        let choices := getField data "choices"
        let choice0 := match choices with
          | some j => jsIndex0 j
          | none => none
        if optTruthy choices && optTruthy (optChainField (optChainField choice0 "delta") "content") then
          match optChainField (optChainField choice0 "delta") "content" with
          | some v => some (.val v)
          | none => some .undef
        else if optTruthy choices && optTruthy (optChainField (optChainField choice0 "message") "content") then
          match optChainField (optChainField choice0 "message") "content" with
          | some v => some (.val v)
          | none => some .undef
        else
          none

/-- The `trimmedLine` computation of `streamChatResponse`:
`line.startsWith('data: ') ? line.slice(6) : line`.  Note that a line that
starts with `data:` but not `data: ` is NOT stripped — the whole line,
prefix included, is what gets handed to `JSON.parse`. -/
def dataPayload (line : List Char) : List Char :=
  if "data: ".toList.isPrefixOf line then line.drop 6 else line

/-- Per-line processing of `streamChatResponse` (apiService.ts): skip lines
containing `event: ping`, skip lines containing `[DONE]`, skip `event:`
lines, skip non-`data:` lines; strip the `data: ` prefix, skip when the
remainder trims to empty, `JSON.parse` it (a failure skips the line), and
shape-dispatch the parsed value. -/
def processLine (line : List Char) : Option JsVal :=
  if containsSub "event: ping".toList line then none
  else if containsSub "[DONE]".toList line then none
  else if "event:".toList.isPrefixOf line then none
  else if ¬ ("data:".toList.isPrefixOf line) then none
  else
    let trimmedLine := dataPayload line
    if (jsTrim trimmedLine).isEmpty then none
    else
      match jsonParse trimmedLine with
      | none => none
      | some data => extractFragment data

/-- Processing of one decoded chunk by `streamChatResponse`: split on
newlines, drop whitespace-only lines, process each remaining line.  There
is no carry of a trailing partial line into the next chunk. -/
def processChunk (chunk : List Char) : List JsVal :=
  ((splitLines chunk).filter (fun l => !(jsTrim l).isEmpty)).filterMap processLine

/-- `streamChatResponse` (apiService.ts): the full fragment sequence the
async generator yields for a stream delivered as the given list of decoded
chunks; the generator ends when the reader reports `done`. -/
def streamChatResponse (chunks : List (List Char)) : List JsVal :=
  chunks.flatMap processChunk

/-- Per-line extraction of the non-streaming aggregation loop in
`sendNeuraRequest` (apiService.ts): skip lines containing `event: ping` or
`[DONE]` or starting with `event:`; require the `data:` prefix; strip
`data: ` (with space) only; skip empty payloads; parse; then accumulate
`data.chunk` if the field is present, else the truthy
`data.choices[0]?.delta?.content`.  Returns the value appended to
`fullContent`, or `none` when the line contributes nothing. -/
def neuraExtractLine (line : List Char) : Option Json :=
  if containsSub "event: ping".toList line ||
      containsSub "[DONE]".toList line ||
      "event:".toList.isPrefixOf line then none
  else if ¬ ("data:".toList.isPrefixOf line) then none
  else
    let trimmedLine := dataPayload line
    if (jsTrim trimmedLine).isEmpty then none
    else
      match jsonParse trimmedLine with
      | none => none
      | some data =>
        match data with
        | .null => none
        | _ =>
          match getField data "chunk" with
          | some v => some v
          | none =>
            let choices := getField data "choices"
            let choice0 := match choices with
              | some j => jsIndex0 j
              | none => none
            if optTruthy choices &&
                optTruthy (optChainField (optChainField choice0 "delta") "content") then
              match optChainField (optChainField choice0 "delta") "content" with
              | some v => some v
              | none => none
            else none

/-- The lines of one chunk as iterated by `sendNeuraRequest`'s aggregation
loop: split on newlines, keep lines whose trim is nonempty. -/
def neuraLines (chunk : List Char) : List (List Char) :=
  (splitLines chunk).filter (fun l => !(jsTrim l).isEmpty)

/-- The `fullContent` accumulator of `sendNeuraRequest`'s non-streaming
branch after consuming the whole body: the nested
`fullContent += ...` loop over chunks and lines. -/
def neuraFullContent (body : List (List Char)) : String :=
  body.foldl
    (fun acc chunk =>
      (neuraLines chunk).foldl
        (fun a line =>
          match neuraExtractLine line with
          | some v => a ++ jsonToString v
          | none => a)
        acc)
    ""

/-- `Message` inside `ChatResponse` (types/index.ts). -/
structure RespMessage where
  role : String
  content : String
deriving Repr

/-- One element of `ChatResponse.choices` (types/index.ts). -/
structure RespChoice where
  index : Nat
  message : RespMessage
  finish_reason : String
deriving Repr

/-- `ChatResponse` (types/index.ts). -/
structure ChatResponse where
  id : String
  choices : List RespChoice
deriving Repr

/-- `Provider` (types/index.ts). -/
inductive Provider where
  | groq | claude | openai | flowise | openrouter | neura
deriving Repr, DecidableEq

/-- The fields of `ChatRequest` (types/index.ts) that the dispatch logic
inspects; `messages`, `model` and `temperature` are forwarded unchanged to
the adapters and are irrelevant to the claims under verification. -/
structure ChatRequestM where
  stream : Bool
deriving Repr

/-- The observable outcome of one `sendChatRequest` call:
* `configError` — thrown before any network request (missing API key);
* `httpError` — thrown on a non-ok HTTP status;
* `stream` — a raw byte stream handed back to the caller;
* `response` — a complete `ChatResponse`;
* `adapter p` — the call was delegated to provider `p`'s adapter, whose
  transport behaviour is outside the scope of the claims. -/
inductive DispatchResult where
  | configError : DispatchResult
  | httpError : DispatchResult
  | stream : List (List Char) → DispatchResult
  | response : ChatResponse → DispatchResult
  | adapter : Provider → DispatchResult
deriving Repr

/-- `sendNeuraRequest` (apiService.ts).  `ok` is the HTTP success flag of
the fetch, `body` the decoded chunk sequence of `response.body`, `freshId`
the value `generateId()` produces for the aggregated response.  The
adapter always requests streaming from the API; when the caller asked for
a stream it passes the bytes through, otherwise it aggregates them into a
single complete `ChatResponse` with one `assistant`/`stop` choice. -/
def sendNeuraRequest (chatRequest : ChatRequestM) (ok : Bool)
    (body : List (List Char)) (freshId : String) : DispatchResult :=
  if ¬ ok then .httpError
  else if chatRequest.stream then .stream body
  else
    .response
      { id := freshId
        choices :=
          [{ index := 0
             message := { role := "assistant", content := neuraFullContent body }
             finish_reason := "stop" }] }

/-- `sendChatRequest` (apiService.ts).  `apiKey` is the result of
`getApiKeyForProvider` (the empty string when the key is unset, which is
falsy in JavaScript).  The missing-key check runs before any adapter is
invoked, except for `flowise`; only the `neura` adapter is modelled in
full, the others are delegated (`adapter p`). -/
def sendChatRequest (provider : Provider) (apiKey : String)
    (chatRequest : ChatRequestM) (ok : Bool) (body : List (List Char))
    (freshId : String) : DispatchResult :=
  if apiKey = "" ∧ provider ≠ Provider.flowise then .configError
  else
    match provider with
    | .flowise => .adapter .flowise
    | .neura => sendNeuraRequest chatRequest ok body freshId
    | p => .adapter p

/-- The streaming consumer loop of `sendMessage` (ChatContext.tsx):
`for await (const chunk of stream) { if (controller.signal.aborted) break;
responseContent += chunk; ... }`.  `sig i` is the state of
`controller.signal.aborted` when fragment `i` is about to be appended;
`acc` is the `responseContent` accumulated so far. -/
def consumeFragments (sig : Nat → Bool) : List JsVal → Nat → String → String
  | [], _, acc => acc
  | f :: rest, i, acc =>
    if sig i then acc
    else consumeFragments sig rest (i + 1) (acc ++ jsValToString f)

/-- The assistant-message content delivered by the consumer loop for a
given stream and abort-signal history. -/
def deliveredContent (chunks : List (List Char)) (sig : Nat → Bool) : String :=
  consumeFragments sig (streamChatResponse chunks) 0 ""

/-- Concatenation of a list of strings, in order. -/
def concatStrings : List String → String
  | [] => ""
  | s :: rest => s ++ concatStrings rest

/-- The values `sendNeuraRequest`'s aggregation loop extracts from the
streamed body, in stream order. -/
def neuraExtracted (body : List (List Char)) : List Json :=
  body.flatMap (fun c => (neuraLines c).filterMap neuraExtractLine)

lemma splitLines_ne_nil (l : List Char) : splitLines l ≠ [] := by
  induction l with
  | nil => simp [splitLines]
  | cons c rest ih =>
    by_cases hc : c = '\n'
    · simp [splitLines, hc]
    · simp only [splitLines, hc, if_false]
      cases splitLines rest <;> simp

lemma splitLines_append_newline (x y : List Char) :
    splitLines (x ++ '\n' :: y) = splitLines x ++ splitLines y := by
  induction x with
  | nil => simp [splitLines]
  | cons c rest ih =>
    by_cases hc : c = '\n'
    · simp [splitLines, hc, ih]
    · simp only [List.cons_append, splitLines, hc, if_false]
      rcases hsr : splitLines rest with _ | ⟨l, ls⟩
      · exact absurd hsr (splitLines_ne_nil rest)
      · rw [List.append_eq, ih, hsr]
        simp

lemma splitLines_of_no_newline (l : List Char) (h : '\n' ∉ l) :
    splitLines l = [l] := by
  induction l with
  | nil => rfl
  | cons c rest ih =>
    have hc : ¬ c = '\n' := fun hc => h (hc ▸ List.mem_cons_self c rest)
    have hr : '\n' ∉ rest := fun hr => h (List.mem_cons_of_mem c hr)
    simp [splitLines, hc, ih hr]

lemma jsTrim_cons_not_ws (c : Char) (l : List Char) (hc : jsWhitespaceChar c = false) :
    (jsTrim (c :: l)).isEmpty = false := by
  unfold jsTrim
  rw [List.dropWhile_cons, hc]
  simp only [Bool.false_eq_true, if_false]
  rcases hdw : ((c :: l).reverse.dropWhile jsWhitespaceChar) with _ | ⟨d, ds⟩
  · rw [List.dropWhile_eq_nil_iff] at hdw
    have := hdw c (by simp)
    rw [hc] at this
    exact absurd this (by simp)
  · simp

lemma processChunk_split_at_newline (x y : List Char) :
    processChunk (x ++ '\n' :: y) = processChunk (x ++ ['\n']) ++ processChunk y := by
  unfold processChunk
  rw [splitLines_append_newline x y]
  have h1 : x ++ ['\n'] = x ++ '\n' :: ([] : List Char) := rfl
  rw [h1, splitLines_append_newline x []]
  simp [splitLines, List.filter_append, List.filterMap_append, jsTrim]

lemma processLine_of_containsDone (line : List Char)
    (h : containsSub "[DONE]".toList line = true) : processLine line = none := by
  unfold processLine
  rcases hping : containsSub "event: ping".toList line <;> simp_all

lemma processLine_of_not_data (line : List Char)
    (h : "data:".toList.isPrefixOf line = false) : processLine line = none := by
  unfold processLine
  rcases h1 : containsSub "event: ping".toList line <;>
    rcases h2 : containsSub "[DONE]".toList line <;>
    rcases h3 : "event:".toList.isPrefixOf line <;>
    simp_all

lemma processLine_of_parse_fail (line : List Char)
    (h : jsonParse (dataPayload line) = none) : processLine line = none := by
  unfold processLine
  rcases h1 : containsSub "event: ping".toList line <;>
    rcases h2 : containsSub "[DONE]".toList line <;>
    rcases h3 : "event:".toList.isPrefixOf line <;>
    rcases h4 : "data:".toList.isPrefixOf line <;>
    rcases h5 : (jsTrim (dataPayload line)).isEmpty <;>
    simp_all

lemma processLine_some_data_prefix (line : List Char) (f : JsVal)
    (h : processLine line = some f) : "data:".toList.isPrefixOf line = true := by
  by_contra hne
  rw [processLine_of_not_data line (Bool.not_eq_true _ ▸ hne)] at h
  exact Option.noConfusion h

lemma processLine_some_trim_ne (line : List Char) (f : JsVal)
    (h : processLine line = some f) : (jsTrim line).isEmpty = false := by
  have hpre := processLine_some_data_prefix line f h
  rw [List.isPrefixOf_iff_prefix] at hpre
  obtain ⟨t, ht⟩ := hpre
  subst ht
  exact jsTrim_cons_not_ws 'd' _ (by decide)

lemma parseJsonValue_cons_d (n : Nat) (rest : List Char) :
    parseJsonValue (n + 1) ('d' :: rest) = none := by
  unfold parseJsonValue
  have hws : List.dropWhile jsonWsChar ('d' :: rest) = 'd' :: rest := by
    rw [List.dropWhile_cons]
    simp [jsonWsChar]
  rw [hws]
  split <;> simp_all
  rename_i heq
  obtain ⟨hc, hr⟩ := heq
  subst hc
  intro hcond
  rcases hcond with h | h
  · exact absurd h (by decide)
  · exact absurd h (by decide)

lemma jsonParse_cons_d (rest : List Char) : jsonParse ('d' :: rest) = none := by
  unfold jsonParse
  have hlen : ('d' :: rest).length + 1 = (rest.length + 1) + 1 := by simp
  rw [hlen, parseJsonValue_cons_d]

lemma extractFragment_chunk (data : Json) (v : Json)
    (hnull : data ≠ Json.null) (h : getField data "chunk" = some v) :
    extractFragment data = some (.val v) := by
  cases data <;> simp_all [extractFragment, getField]

lemma concatStrings_append (a b : List String) :
    concatStrings (a ++ b) = concatStrings a ++ concatStrings b := by
  induction a with
  | nil => simp [concatStrings]
  | cons s rest ih => simp [concatStrings, ih, String.append_assoc]

lemma neuraChunkFold_eq (lines : List (List Char)) (acc : String) :
    lines.foldl
      (fun a line =>
        match neuraExtractLine line with
        | some v => a ++ jsonToString v
        | none => a) acc
    = acc ++ concatStrings ((lines.filterMap neuraExtractLine).map jsonToString) := by
  induction lines generalizing acc with
  | nil => simp [concatStrings]
  | cons l rest ih =>
    cases hx : neuraExtractLine l
    · simp [List.foldl_cons, hx, List.filterMap_cons, ih]
    · simp [List.foldl_cons, hx, List.filterMap_cons, ih, concatStrings,
        String.append_assoc]

lemma neuraFullContent_eq (body : List (List Char)) :
    neuraFullContent body =
      concatStrings ((neuraExtracted body).map jsonToString) := by
  unfold neuraFullContent
  suffices h : ∀ acc : String,
      body.foldl
        (fun acc chunk =>
          (neuraLines chunk).foldl
            (fun a line =>
              match neuraExtractLine line with
              | some v => a ++ jsonToString v
              | none => a) acc) acc
      = acc ++ concatStrings ((neuraExtracted body).map jsonToString) by
    rw [h ""]
    simp
  induction body with
  | nil => intro acc; simp [neuraExtracted, concatStrings]
  | cons c rest ih =>
    intro acc
    rw [List.foldl_cons, neuraChunkFold_eq, ih]
    rw [show neuraExtracted (c :: rest) =
      ((neuraLines c).filterMap neuraExtractLine) ++ neuraExtracted rest from rfl]
    rw [List.map_append, concatStrings_append, String.append_assoc]

lemma consumeFragments_prefix (sig : Nat → Bool) (frags : List JsVal) :
    ∀ (i : Nat) (acc : String),
      ∃ k, k ≤ frags.length ∧
        consumeFragments sig frags i acc =
          acc ++ concatStrings ((frags.take k).map jsValToString) ∧
        ∀ j, j < k → sig (i + j) = false := by
  induction frags with
  | nil =>
    intro i acc
    exact ⟨0, Nat.le_refl 0, by simp [consumeFragments, concatStrings], by omega⟩
  | cons f rest ih =>
    intro i acc
    rcases hs : sig i with _ | _
    · obtain ⟨k, hk, heq, hsig⟩ := ih (i + 1) (acc ++ jsValToString f)
      refine ⟨k + 1, by simpa using hk, ?_, ?_⟩
      · rw [consumeFragments, hs]
        simp only [Bool.false_eq_true, if_false]
        rw [heq]
        simp [concatStrings, String.append_assoc]
      · intro j hj
        rcases j with _ | j'
        · simpa using hs
        · have := hsig j' (by omega)
          simpa [Nat.add_assoc, Nat.add_comm 1 j'] using this
    · refine ⟨0, Nat.zero_le _, ?_, by omega⟩
      rw [consumeFragments, hs]
      simp [concatStrings]

/-- C1, corrected, counterexample: the claim asserts chunk-split
invariance at an arbitrary byte offset.  It is false: `streamChatResponse`
keeps no pending-partial-line buffer, so delivering
`data: {"chunk":"hi"}\n` as one chunk yields the fragment `"hi"`, while
splitting the same text mid-line into two chunks yields no fragment at
all (each half is processed as a complete line and fails its checks). -/
theorem chunk_split_counterexample :
    streamChatResponse ["data: \x7b\"chunk\":\"hi\"\x7d\n".toList] =
      [JsVal.val (Json.str "hi")] ∧
    streamChatResponse ["data: \x7b\"chu".toList, "nk\":\"hi\"\x7d\n".toList] = [] :=
  ⟨rfl, rfl⟩

/-- C1, amended: chunk-split invariance holds exactly at line
boundaries: splitting the stream text into two chunks immediately after a
newline character yields the same fragment sequence as delivering the
text as a single chunk.  (A mid-line split can change the sequence, per
the counterexample.) -/
theorem chunk_split_at_line_boundary (x y : List Char) :
    streamChatResponse [x ++ '\n' :: y] =
      streamChatResponse [x ++ ['\n'], y] := by
  simp only [streamChatResponse, List.flatMap_cons, List.flatMap_nil,
    List.append_nil]
  rw [processChunk_split_at_newline]

/-- C2, confirmed: a stream whose final chunk is a single line
containing the `[DONE]` sentinel (followed by a newline) produces exactly
the fragment sequence of the stream without that chunk: the sentinel line
contributes no fragment, and the sequence — a finite list by
construction — then terminates on stream close. -/
theorem done_sentinel_terminates (chunks : List (List Char)) (line : List Char)
    (h1 : '\n' ∉ line) (h2 : containsSub "[DONE]".toList line = true) :
    streamChatResponse (chunks ++ [line ++ ['\n']]) =
      streamChatResponse chunks := by
  unfold streamChatResponse
  rw [List.flatMap_append]
  suffices h : processChunk (line ++ ['\n']) = [] by
    simp [List.flatMap, h]
  unfold processChunk
  rw [show line ++ ['\n'] = line ++ '\n' :: ([] : List Char) from rfl,
    splitLines_append_newline, splitLines_of_no_newline line h1]
  have hnil : jsTrim ([] : List Char) = [] := rfl
  rcases htrim : (jsTrim line).isEmpty <;>
    simp [splitLines, List.filter, htrim, hnil,
      processLine_of_containsDone line h2]

/-- Witness for C2: a concrete stream ending in `data: [DONE]\n` yields
exactly the fragments of the preceding chunks. -/
theorem done_sentinel_terminates_witness :
    streamChatResponse
        (["data: \x7b\"chunk\":\"a\"\x7d\n".toList] ++
          ["data: [DONE]".toList ++ ['\n']]) =
      streamChatResponse ["data: \x7b\"chunk\":\"a\"\x7d\n".toList] ∧
    streamChatResponse ["data: \x7b\"chunk\":\"a\"\x7d\n".toList] =
      [JsVal.val (Json.str "a")] :=
  ⟨done_sentinel_terminates _ _ (by decide) (by decide), rfl⟩

/-- C3, confirmed: shape dispatch follows a fixed priority order:
whenever the parsed payload has a `chunk` field (and is not `null`), the
yielded fragment is exactly that field, whatever else the payload
contains; concretely, a payload matching both the `chunk` shape and a
`choices`-delta shape yields the chunk text, a chunk-less payload
matching both the `content_block_delta` shape and a `choices`-delta shape
yields the delta text, and a payload matching both the `choices`-delta
and `choices`-message shapes yields the delta content. -/
theorem shape_dispatch_priority :
    (∀ (data v : Json), data ≠ Json.null →
        getField data "chunk" = some v →
        extractFragment data = some (JsVal.val v)) ∧
    processLine
        "data: \x7b\"chunk\":\"A\",\"choices\":[\x7b\"delta\":\x7b\"content\":\"B\"\x7d\x7d]\x7d".toList =
      some (JsVal.val (Json.str "A")) ∧
    processLine
        "data: \x7b\"type\":\"content_block_delta\",\"delta\":\x7b\"type\":\"text_delta\",\"text\":\"T\"\x7d,\"choices\":[\x7b\"delta\":\x7b\"content\":\"B\"\x7d\x7d]\x7d".toList =
      some (JsVal.val (Json.str "T")) ∧
    processLine
        "data: \x7b\"choices\":[\x7b\"delta\":\x7b\"content\":\"D\"\x7d,\"message\":\x7b\"content\":\"M\"\x7d\x7d]\x7d".toList =
      some (JsVal.val (Json.str "D")) :=
  ⟨extractFragment_chunk, rfl, rfl, rfl⟩

/-- Witness for C3: the priority statement applied to the concrete object
`{"chunk":"A"}`, hypotheses discharged. -/
theorem shape_dispatch_priority_witness :
    Json.obj [("chunk", Json.str "A")] ≠ Json.null ∧
    getField (Json.obj [("chunk", Json.str "A")]) "chunk" = some (Json.str "A") ∧
    extractFragment (Json.obj [("chunk", Json.str "A")]) =
      some (JsVal.val (Json.str "A")) :=
  ⟨fun h => Json.noConfusion h, rfl,
    shape_dispatch_priority.1 _ _ (fun h => Json.noConfusion h) rfl⟩

/-- C4, confirmed: a line whose payload fails to parse as JSON,
sitting between two fragment-producing lines, is skipped silently: the
stream yields exactly the two fragments of the valid lines, and the
malformed line neither adds a fragment nor terminates the sequence (no
error is modelled because the source catches and logs the parse failure). -/
theorem malformed_line_resilience (l1 lbad l2 : List Char) (f1 f2 : JsVal)
    (h1 : processLine l1 = some f1) (h2 : processLine l2 = some f2)
    (hbad : jsonParse (dataPayload lbad) = none)
    (n1 : '\n' ∉ l1) (nb : '\n' ∉ lbad) (n2 : '\n' ∉ l2) :
    streamChatResponse [l1 ++ '\n' :: (lbad ++ '\n' :: l2)] = [f1, f2] := by
  unfold streamChatResponse processChunk
  simp only [List.flatMap_cons, List.flatMap_nil, List.append_nil]
  rw [splitLines_append_newline, splitLines_append_newline,
    splitLines_of_no_newline l1 n1, splitLines_of_no_newline lbad nb,
    splitLines_of_no_newline l2 n2]
  have k1 := processLine_some_trim_ne l1 f1 h1
  have k2 := processLine_some_trim_ne l2 f2 h2
  have kb := processLine_of_parse_fail lbad hbad
  rcases hb : (jsTrim lbad).isEmpty <;>
    simp [List.filter, k1, k2, hb, h1, h2, kb]

/-- Witness for C4: `data: {oops` between two valid chunk lines yields
exactly the two valid fragments. -/
theorem malformed_line_resilience_witness :
    processLine "data: \x7b\"chunk\":\"a\"\x7d".toList = some (JsVal.val (Json.str "a")) ∧
    jsonParse (dataPayload "data: \x7boops".toList) = none ∧
    streamChatResponse
        ["data: \x7b\"chunk\":\"a\"\x7d".toList ++ '\n' ::
          ("data: \x7boops".toList ++ '\n' :: "data: \x7b\"chunk\":\"b\"\x7d".toList)] =
      [JsVal.val (Json.str "a"), JsVal.val (Json.str "b")] :=
  ⟨rfl, rfl,
    malformed_line_resilience _ _ _ _ _ rfl rfl rfl (by decide) (by decide) (by decide)⟩

/-- C5, confirmed: dispatching to the `neura` provider with
`stream:false` (and a resolvable key and a successful HTTP response)
returns a single complete `ChatResponse` — not an error and not a raw
stream — whose sole choice has role `assistant`, finish reason `stop`,
and content equal to the in-order concatenation of the texts the
aggregation loop extracts from the internally streamed body. -/
theorem neura_non_streaming_fallback (apiKey : String) (hk : apiKey ≠ "")
    (req : ChatRequestM) (hs : req.stream = false)
    (body : List (List Char)) (freshId : String) :
    sendChatRequest Provider.neura apiKey req true body freshId =
      DispatchResult.response
        { id := freshId
          choices :=
            [{ index := 0
               message :=
                 { role := "assistant"
                   content := concatStrings ((neuraExtracted body).map jsonToString) }
               finish_reason := "stop" }] } := by
  unfold sendChatRequest sendNeuraRequest
  simp [hk, hs, neuraFullContent_eq]

/-- Witness for C5: a concrete two-line streamed body aggregates to the
complete response with content `"ab"`. -/
theorem neura_non_streaming_fallback_witness :
    ("k" : String) ≠ "" ∧
    sendChatRequest Provider.neura "k" ⟨false⟩ true
        ["data: \x7b\"chunk\":\"a\"\x7d\ndata: \x7b\"chunk\":\"b\"\x7d\n".toList] "id1" =
      DispatchResult.response
        { id := "id1"
          choices :=
            [{ index := 0
               message := { role := "assistant", content := "ab" }
               finish_reason := "stop" }] } :=
  ⟨by decide,
    (neura_non_streaming_fallback "k" (by decide) ⟨false⟩ rfl
      ["data: \x7b\"chunk\":\"a\"\x7d\ndata: \x7b\"chunk\":\"b\"\x7d\n".toList] "id1").trans
      (by rfl)⟩

/-- C6, corrected, counterexample: the claim asserts the `data:`
prefix is stripped with or without a space after the colon.  It is false
for the no-space form: `data:{"chunk":"hi"}` yields no fragment (the
prefix is left in place, so `JSON.parse` fails on the whole line), while
the same payload behind `data: ` (with space) yields the fragment. -/
theorem data_prefix_counterexample :
    processLine "data:\x7b\"chunk\":\"hi\"\x7d".toList = none ∧
    processLine "data: \x7b\"chunk\":\"hi\"\x7d".toList =
      some (JsVal.val (Json.str "hi")) :=
  ⟨rfl, rfl⟩

/-- C6, amended: lines that do not start with `data:` are always
discarded.  A line of the form `data: <payload>` (with space) has exactly
the six-character prefix stripped and the payload parsed and
shape-dispatched (provided the line triggers no earlier control check).
A line starting `data:` with no following space is NOT stripped: the
whole line is handed to `JSON.parse`, which always fails on it, so the
line is skipped. -/
theorem data_prefix_handling :
    (∀ line : List Char, "data:".toList.isPrefixOf line = false →
        processLine line = none) ∧
    (∀ p : List Char,
        containsSub "event: ping".toList ("data: ".toList ++ p) = false →
        containsSub "[DONE]".toList ("data: ".toList ++ p) = false →
        processLine ("data: ".toList ++ p) =
          (if (jsTrim p).isEmpty then none
           else
             match jsonParse p with
             | none => none
             | some data => extractFragment data)) ∧
    (∀ p : List Char, p.head? ≠ some ' ' →
        processLine ("data:".toList ++ p) = none) := by
  refine ⟨processLine_of_not_data, ?_, ?_⟩
  · intro p hping hdone
    have hev : "event:".toList.isPrefixOf ("data: ".toList ++ p) = false := by
      rw [Bool.eq_false_iff]
      intro h
      rw [List.isPrefixOf_iff_prefix] at h
      obtain ⟨t, ht⟩ := h
      have hh := congrArg List.head? ht
      simp at hh
    have hda : "data:".toList.isPrefixOf ("data: ".toList ++ p) = true :=
      List.isPrefixOf_iff_prefix.mpr
        ((by decide : "data:".toList <+: "data: ".toList).trans
          (List.prefix_append _ _))
    have hds : "data: ".toList.isPrefixOf ("data: ".toList ++ p) = true :=
      List.isPrefixOf_iff_prefix.mpr (List.prefix_append _ _)
    have hdrop : ("data: ".toList ++ p).drop 6 = p := rfl
    unfold processLine dataPayload
    rw [hping, hdone, hev, hda, hds]
    simp [hdrop]
  · intro p hp
    apply processLine_of_parse_fail
    have hnds : "data: ".toList.isPrefixOf ("data:".toList ++ p) = false := by
      rw [Bool.eq_false_iff]
      intro h
      rw [List.isPrefixOf_iff_prefix] at h
      obtain ⟨t, ht⟩ := h
      have h5 := congrArg (List.drop 5) ht
      simp at h5
      exact hp (by rw [← h5]; rfl)
    unfold dataPayload
    rw [hnds]
    simp only [Bool.false_eq_true, if_false]
    exact jsonParse_cons_d ("ata:".toList ++ p)

/-- Witness for C6: the with-space branch applied to the concrete payload
`{"chunk":"hi"}`, hypotheses discharged. -/
theorem data_prefix_handling_witness :
    containsSub "event: ping".toList
        ("data: ".toList ++ "\x7b\"chunk\":\"hi\"\x7d".toList) = false ∧
    containsSub "[DONE]".toList
        ("data: ".toList ++ "\x7b\"chunk\":\"hi\"\x7d".toList) = false ∧
    processLine ("data: ".toList ++ "\x7b\"chunk\":\"hi\"\x7d".toList) =
      some (JsVal.val (Json.str "hi")) :=
  ⟨by decide, by decide,
    (data_prefix_handling.2.1 "\x7b\"chunk\":\"hi\"\x7d".toList
      (by decide) (by decide)).trans (by rfl)⟩

/-- C7, confirmed: when the credential lookup resolves no API key
(the empty string), `sendChatRequest` fails with the configuration error
before reaching any adapter — hence before any outbound network request —
for every provider except `flowise`; for `flowise` the missing key does
not trigger this pre-network error and the request proceeds to the
adapter. -/
theorem missing_credential_config_error :
    (∀ (p : Provider) (req : ChatRequestM) (ok : Bool)
        (body : List (List Char)) (freshId : String),
        p ≠ Provider.flowise →
        sendChatRequest p "" req ok body freshId = DispatchResult.configError) ∧
    (∀ (req : ChatRequestM) (ok : Bool) (body : List (List Char))
        (freshId : String),
        sendChatRequest Provider.flowise "" req ok body freshId =
          DispatchResult.adapter Provider.flowise) := by
  constructor
  · intro p req ok body freshId hp
    unfold sendChatRequest
    simp [hp]
  · intro req ok body freshId
    unfold sendChatRequest
    simp

/-- Witness for C7: the `neura` provider with an empty key fails with the
configuration error. -/
theorem missing_credential_config_error_witness :
    Provider.neura ≠ Provider.flowise ∧
    sendChatRequest Provider.neura "" ⟨false⟩ true [] "id" =
      DispatchResult.configError :=
  ⟨by decide, missing_credential_config_error.1 Provider.neura ⟨false⟩ true [] "id" (by decide)⟩

/-- C8, confirmed: the consumer loop checks the cancellation signal
before appending each fragment and breaks as soon as it reads `true`:
whenever the signal is observed set by iteration `N`, the delivered
assistant content is the concatenation of at most the first `N` fragments
of the stream — no fragment yielded after cancellation is observed is
appended, even if more chunks were already buffered. -/
theorem cancellation_discards_tail (chunks : List (List Char))
    (sig : Nat → Bool) (N : Nat) (hN : sig N = true) :
    ∃ k, k ≤ N ∧
      deliveredContent chunks sig =
        concatStrings (((streamChatResponse chunks).take k).map jsValToString) := by
  obtain ⟨k, hk, heq, hsig⟩ :=
    consumeFragments_prefix sig (streamChatResponse chunks) 0 ""
  refine ⟨k, ?_, ?_⟩
  · by_contra hgt
    push_neg at hgt
    have hf := hsig N (by omega)
    rw [Nat.zero_add] at hf
    simp [hf] at hN
  · rw [deliveredContent, heq]
    simp

/-- Witness for C8: cancelling after two fragments of a three-fragment
stream delivers `"ab"`, a prefix of at most the first two fragments. -/
theorem cancellation_discards_tail_witness :
    (fun i => decide (2 ≤ i)) 2 = true ∧
    deliveredContent
        ["data: \x7b\"chunk\":\"a\"\x7d\ndata: \x7b\"chunk\":\"b\"\x7d\ndata: \x7b\"chunk\":\"c\"\x7d\n".toList]
        (fun i => decide (2 ≤ i)) = "ab" ∧
    ∃ k, k ≤ 2 ∧
      deliveredContent
          ["data: \x7b\"chunk\":\"a\"\x7d\ndata: \x7b\"chunk\":\"b\"\x7d\ndata: \x7b\"chunk\":\"c\"\x7d\n".toList]
          (fun i => decide (2 ≤ i)) =
        concatStrings
          (((streamChatResponse
              ["data: \x7b\"chunk\":\"a\"\x7d\ndata: \x7b\"chunk\":\"b\"\x7d\ndata: \x7b\"chunk\":\"c\"\x7d\n".toList]).take
            k).map jsValToString) :=
  ⟨rfl, rfl,
    cancellation_discards_tail
      ["data: \x7b\"chunk\":\"a\"\x7d\ndata: \x7b\"chunk\":\"b\"\x7d\ndata: \x7b\"chunk\":\"c\"\x7d\n".toList]
      (fun i => decide (2 ≤ i)) 2 rfl⟩

/-- C9, confirmed: the sentinel check is substring containment on
the whole line: any line containing `[DONE]` anywhere yields no fragment —
including a well-formed data line whose chunk text merely contains
`[DONE]` — while the same line without the bracketed sentinel yields its
chunk text. -/
theorem done_substring_suppression :
    (∀ line : List Char, containsSub "[DONE]".toList line = true →
        processLine line = none) ∧
    processLine "data: \x7b\"chunk\":\"x [DONE] y\"\x7d".toList = none ∧
    processLine "data: \x7b\"chunk\":\"x DONE y\"\x7d".toList =
      some (JsVal.val (Json.str "x DONE y")) :=
  ⟨processLine_of_containsDone, rfl, rfl⟩

/-- Witness for C9: the suppression statement applied to the concrete
content-bearing data line. -/
theorem done_substring_suppression_witness :
    containsSub "[DONE]".toList "data: \x7b\"chunk\":\"x [DONE] y\"\x7d".toList = true ∧
    processLine "data: \x7b\"chunk\":\"x [DONE] y\"\x7d".toList = none :=
  ⟨by decide, done_substring_suppression.1 _ (by decide)⟩

/-- C10, confirmed: empty-fragment asymmetry: an empty-string
`choices[0].delta.content` is falsy, so the delta shape does not fire and
the line falls through toward the message fallback (yielding nothing when
no message content is present, and the message content when it is), whereas
`\x7b"chunk":""\x7d` passes the presence-only check and yields one
empty-string fragment. -/
theorem empty_fragment_asymmetry :
    processLine "data: \x7b\"choices\":[\x7b\"delta\":\x7b\"content\":\"\"\x7d\x7d]\x7d".toList = none ∧
    processLine "data: \x7b\"chunk\":\"\"\x7d".toList = some (JsVal.val (Json.str "")) ∧
    processLine "data: \x7b\"choices\":[\x7b\"delta\":\x7b\"content\":\"\"\x7d,\"message\":\x7b\"content\":\"M\"\x7d\x7d]\x7d".toList =
      some (JsVal.val (Json.str "M")) :=
  ⟨rfl, rfl, rfl⟩

example : jsonParse "\x7b\"chunk\":\"hi\"\x7d".toList =
    some (.obj [("chunk", .str "hi")]) := by rfl

example : jsonParse "\x7boops".toList = none := by rfl

example : jsonParse " [1, \x7b\"a\": null\x7d, \"x\"] ".toList =
    some (.arr [.num "1", .obj [("a", .null)], .str "x"]) := by rfl

example :
    streamChatResponse ["data: \x7b\"chunk\":\"hi\"\x7d\n".toList] =
      [.val (.str "hi")] := by rfl

example :
    streamChatResponse
      ["data: \x7b\"choices\":[\x7b\"delta\":\x7b\"content\":\"Hel\"\x7d\x7d]\x7d\n\ndata: \x7b\"choices\":[\x7b\"delta\":\x7b\"content\":\"lo\"\x7d\x7d]\x7d\n\ndata: [DONE]\n\n".toList] =
      [.val (.str "Hel"), .val (.str "lo")] := by rfl

example :
    streamChatResponse
      ["data: \x7b\"type\":\"content_block_delta\",\"delta\":\x7b\"type\":\"text_delta\",\"text\":\"T\"\x7d\x7d\n".toList] =
      [.val (.str "T")] := by rfl
